import Mathlib

/-!
Verification of the research-agent repository.

The embedded code comes from `src/research-agent.py` (the note-taking tools
`save_note` and `get_notes`, and the restricted arithmetic tool `calculate`),
from `src/minimal_agent.py`, and — for the agent loop, which lives in the
external smolagents library and is only configured by `create_agent` — from
the specification of the AgentLoop component.

Python specifics are modelled as follows: the mutable global note list becomes
explicit state passing (`List Note` in, `List Note` out); `datetime.now()`
becomes an explicit timestamp argument; Python `eval` on the admitted
character set `0-9 + - * / . ( ) space` becomes a tokenizer, a
recursive-descent parser and an evaluator over exact values (`Int` for Python
ints, `ℚ` for Python floats — IEEE-754 rounding is not modelled, arithmetic is
exact); exceptions become `Except String`.
-/

namespace ResearchAgent

/-- A research note, as built by `save_note`: a dict with keys
`id`, `topic`, `content`, `timestamp`. The timestamp string that Python
obtains from `datetime.now().isoformat()` is threaded in as an argument. -/
structure Note where
  id : Nat
  topic : String
  content : String
  timestamp : String
deriving DecidableEq, Repr

/-- The confirmation string returned by `save_note`
(`f"✅ Note #{note['id']} saved under topic '{topic}'"`). -/
def saveMsg (id : Nat) (topic : String) : String :=
  "✅ Note #" ++ toString id ++ " saved under topic \x27" ++ topic ++ "\x27"

/-- `save_note(topic, content)` from `src/research-agent.py` lines 32–49:
builds a note whose id is `len(research_notes) + 1`, appends it to the
store, and returns the confirmation message. The mutable global
`research_notes` is passed and returned explicitly. -/
def save_note (store : List Note) (topic content timestamp : String) :
    List Note × String :=
  let note : Note :=
    { id := store.length + 1, topic := topic, content := content,
      timestamp := timestamp }
  (store ++ [note], saveMsg note.id topic)

/-- Python `str.lower()` on the characters of a string, modelled with
`Char.toLower` (faithful on ASCII, which is all the allowlisted and
claim-relevant inputs use). -/
def lowerChars (s : String) : List Char := s.data.map Char.toLower

/-- Bool test that `pat` is an initial segment of `l`
(character-list analogue of Python `str.startswith`). -/
def isPre : List Char → List Char → Bool
  | [], _ => true
  | _ :: _, [] => false
  | a :: as, b :: bs => a = b && isPre as bs

/-- Bool test that `needle` occurs contiguously inside `hay`:
the Python substring operator `needle in hay`. -/
def containsSub (needle : List Char) : List Char → Bool
  | [] => needle.isEmpty
  | c :: rest => isPre needle (c :: rest) || containsSub needle rest

/-- The filter test of `get_notes`: `topic.lower() in n["topic"].lower()`. -/
def matchesTopic (t : String) (n : Note) : Bool :=
  containsSub (lowerChars t) (lowerChars n.topic)

/-- The list comprehension of `get_notes`:
`[n for n in research_notes if topic.lower() in n["topic"].lower()]`. -/
def filterNotes (store : List Note) (t : String) : List Note :=
  store.filter (matchesTopic t)

/-- The notes `get_notes` displays: the filtered list when the topic filter
is nonempty (Python `if topic:`), otherwise the whole store. -/
def displayedNotes (store : List Note) (t : String) : List Note :=
  if t ≠ "" then filterNotes store t else store

/-- One line of `get_notes` output: `f"[{note['id']}] {note['topic']}: {note['content']}\n\n"`. -/
def renderNote (n : Note) : String :=
  "[" ++ toString n.id ++ "] " ++ n.topic ++ ": " ++ n.content ++ "\n\n"

/-- The success output of `get_notes`: the `Found ... note(s)` header
followed by one line per displayed note, accumulated with `+=` in order. -/
def renderNotes (notes : List Note) : String :=
  notes.foldl (fun acc n => acc ++ renderNote n)
    ("📝 Found " ++ toString notes.length ++ " note(s):\n\n")

/-- Returned by `get_notes` when the store is empty. -/
def noNotesSavedMsg : String := "📝 No notes saved yet."

/-- Returned by `get_notes` when a nonempty filter matches nothing. -/
def noNotesFoundMsg (t : String) : String :=
  "📝 No notes found for topic \x27" ++ t ++ "\x27"

/-- `get_notes(topic)` from `src/research-agent.py` lines 52–74: empty store
short-circuits to the global indicator; a nonempty filter selects matching
notes and reports `No notes found` when none match; otherwise all notes are
rendered in store order. -/
def get_notes (store : List Note) (topic : String) : String :=
  if store.isEmpty then noNotesSavedMsg
  else if topic ≠ "" then
    let filtered := filterNotes store topic
    if filtered.isEmpty then noNotesFoundMsg topic
    else renderNotes filtered
  else renderNotes store

/-- A Python numeric value as produced by `eval` on the admitted character
set: an `int` or a `float`. Floats are modelled as exact rationals; IEEE-754
rounding is not modelled, so float arithmetic here is exact where Python
rounds to the nearest double. -/
inductive PyVal where
  | int (n : Int)
  | float (q : ℚ)
deriving DecidableEq, Repr

/-- The numeric content of a value (Python coercion of `int` to `float`). -/
def toQ : PyVal → ℚ
  | .int n => (n : ℚ)
  | .float q => q

/-- The tokens Python can form out of the characters `0-9 + - * / . ( )`:
numeric literals, the four single-character operators, the two-character
operators `**` and `//`, and parentheses. -/
inductive Tok where
  | num (v : PyVal)
  | plus | minus | star | slash | dstar | dslash | lparen | rparen
deriving DecidableEq, Repr

/-- Value of a string of decimal digit characters. -/
def digitsToNat (ds : List Char) : Nat :=
  ds.foldl (fun a c => 10 * a + (c.toNat - 48)) 0

/-- A decimal integer literal with a leading zero and a nonzero digit is a
Python 3 `SyntaxError` (`007` is rejected, `000` is legal). -/
def badLeadingZero (ds : List Char) : Bool :=
  match ds with
  | '0' :: rest => rest.any (fun c => c ≠ '0')
  | _ => false

/-- The value of a float literal `ds . fs` (either part may be empty,
but not both). -/
def mkFloatLit (ds fs : List Char) : PyVal :=
  .float ((digitsToNat ds : ℚ) + (digitsToNat fs : ℚ) / (10 : ℚ) ^ fs.length)

/-- Tokenizer for the admitted character set, modelling the CPython
tokenizer on these characters: spaces are skipped, `**` and `//` are single
tokens, and a numeric literal is digits with an optional fractional part.
`fuel` bounds the recursion; it is called with more fuel than characters, so
the fuel-exhaustion branch is unreachable. -/
def lexRun : Nat → List Char → Except String (List Tok)
  | 0, _ => .error "invalid syntax"
  | _ + 1, [] => .ok []
  | fuel + 1, c :: cs =>
    if c = ' ' then lexRun fuel cs
    else if c = '+' then (lexRun fuel cs).map (Tok.plus :: ·)
    else if c = '-' then (lexRun fuel cs).map (Tok.minus :: ·)
    else if c = '(' then (lexRun fuel cs).map (Tok.lparen :: ·)
    else if c = ')' then (lexRun fuel cs).map (Tok.rparen :: ·)
    else if c = '*' then
      match cs with
      | '*' :: cs2 => (lexRun fuel cs2).map (Tok.dstar :: ·)
      | _ => (lexRun fuel cs).map (Tok.star :: ·)
    else if c = '/' then
      match cs with
      | '/' :: cs2 => (lexRun fuel cs2).map (Tok.dslash :: ·)
      | _ => (lexRun fuel cs).map (Tok.slash :: ·)
    else if c.isDigit ∨ c = '.' then
      let sp := (c :: cs).span Char.isDigit
      match sp.2 with
      | '.' :: rest2 =>
          let sp2 := rest2.span Char.isDigit
          if sp.1.isEmpty ∧ sp2.1.isEmpty then .error "invalid syntax"
          else (lexRun fuel sp2.2).map (Tok.num (mkFloatLit sp.1 sp2.1) :: ·)
      | _ =>
          if badLeadingZero sp.1 then
            .error "leading zeros in decimal integer literals are not permitted; use an 0o prefix for octal integers"
          else (lexRun fuel sp.2).map (Tok.num (.int (digitsToNat sp.1)) :: ·)
    else .error "invalid character"

/-- The abstract syntax of an admitted Python expression: literals, unary
plus and minus, and the binary operators `+ - * / // **`. -/
inductive PExpr where
  | lit (v : PyVal)
  | pos (e : PExpr)
  | neg (e : PExpr)
  | add (a b : PExpr)
  | sub (a b : PExpr)
  | mul (a b : PExpr)
  | div (a b : PExpr)
  | fdiv (a b : PExpr)
  | pow (a b : PExpr)
deriving DecidableEq, Repr

mutual

/-- `expr := term (("+" | "-") term)*` — lowest precedence level of the
Python expression grammar restricted to the admitted tokens. -/
def parseExpr : Nat → List Tok → Except String (PExpr × List Tok)
  | 0, _ => .error "invalid syntax"
  | fuel + 1, toks => do
      let (e, rest) ← parseTerm fuel toks
      parseExprLoop fuel e rest

/-- Left-associative fold of the `+` and `-` operators. -/
def parseExprLoop : Nat → PExpr → List Tok → Except String (PExpr × List Tok)
  | 0, _, _ => .error "invalid syntax"
  | fuel + 1, e, toks =>
    match toks with
    | Tok.plus :: rest => do
        let (t, r) ← parseTerm fuel rest
        parseExprLoop fuel (.add e t) r
    | Tok.minus :: rest => do
        let (t, r) ← parseTerm fuel rest
        parseExprLoop fuel (.sub e t) r
    | _ => .ok (e, toks)

/-- `term := unary (("*" | "/" | "//") unary)*`. -/
def parseTerm : Nat → List Tok → Except String (PExpr × List Tok)
  | 0, _ => .error "invalid syntax"
  | fuel + 1, toks => do
      let (e, rest) ← parseUnary fuel toks
      parseTermLoop fuel e rest

/-- Left-associative fold of the `*`, `/` and `//` operators. -/
def parseTermLoop : Nat → PExpr → List Tok → Except String (PExpr × List Tok)
  | 0, _, _ => .error "invalid syntax"
  | fuel + 1, e, toks =>
    match toks with
    | Tok.star :: rest => do
        let (t, r) ← parseUnary fuel rest
        parseTermLoop fuel (.mul e t) r
    | Tok.slash :: rest => do
        let (t, r) ← parseUnary fuel rest
        parseTermLoop fuel (.div e t) r
    | Tok.dslash :: rest => do
        let (t, r) ← parseUnary fuel rest
        parseTermLoop fuel (.fdiv e t) r
    | _ => .ok (e, toks)

/-- `unary := ("+" | "-") unary | power` — unary sign binds looser than
`**` on its left (`-2**2` is `-(2**2)`). -/
def parseUnary : Nat → List Tok → Except String (PExpr × List Tok)
  | 0, _ => .error "invalid syntax"
  | fuel + 1, toks =>
    match toks with
    | Tok.plus :: rest => do
        let (e, r) ← parseUnary fuel rest
        .ok (.pos e, r)
    | Tok.minus :: rest => do
        let (e, r) ← parseUnary fuel rest
        .ok (.neg e, r)
    | _ => parsePower fuel toks

/-- `power := atom ["**" unary]` — right associative, and the right operand
admits a unary sign (`2**-1` is legal). -/
def parsePower : Nat → List Tok → Except String (PExpr × List Tok)
  | 0, _ => .error "invalid syntax"
  | fuel + 1, toks => do
      let (a, rest) ← parseAtom fuel toks
      match rest with
      | Tok.dstar :: rest2 => do
          let (b, r) ← parseUnary fuel rest2
          .ok (.pow a b, r)
      | _ => .ok (a, rest)

/-- `atom := literal | "(" expr ")"`. -/
def parseAtom : Nat → List Tok → Except String (PExpr × List Tok)
  | 0, _ => .error "invalid syntax"
  | fuel + 1, toks =>
    match toks with
    | Tok.num v :: rest => .ok (.lit v, rest)
    | Tok.lparen :: rest => do
        let (e, r) ← parseExpr fuel rest
        match r with
        | Tok.rparen :: r2 => .ok (e, r2)
        | _ => .error "invalid syntax"
    | _ => .error "invalid syntax"

end

/-- Python unary minus on a number. -/
def pyNeg : PyVal → PyVal
  | .int n => .int (-n)
  | .float q => .float (-q)

/-- Python `+` on numbers: `int + int` is an `int`, otherwise a float. -/
def pyAdd : PyVal → PyVal → PyVal
  | .int a, .int b => .int (a + b)
  | a, b => .float (toQ a + toQ b)

/-- Python `-` on numbers. -/
def pySub : PyVal → PyVal → PyVal
  | .int a, .int b => .int (a - b)
  | a, b => .float (toQ a - toQ b)

/-- Python `*` on numbers. -/
def pyMul : PyVal → PyVal → PyVal
  | .int a, .int b => .int (a * b)
  | a, b => .float (toQ a * toQ b)

/-- Python true division `/`: always a float, `ZeroDivisionError` on a zero
divisor (with the int and float variants of the message). -/
def pyDiv : PyVal → PyVal → Except String PyVal
  | .int a, .int b =>
      if b = 0 then .error "division by zero"
      else .ok (.float ((a : ℚ) / (b : ℚ)))
  | a, b =>
      if toQ b = 0 then .error "float division by zero"
      else .ok (.float (toQ a / toQ b))

/-- Python floor division `//`: floor toward negative infinity; an `int`
when both operands are ints, a float otherwise. -/
def pyFloorDiv : PyVal → PyVal → Except String PyVal
  | .int a, .int b =>
      if b = 0 then .error "integer division or modulo by zero"
      else .ok (.int (Int.fdiv a b))
  | a, b =>
      if toQ b = 0 then .error "float floor division by zero"
      else .ok (.float ((⌊toQ a / toQ b⌋ : ℤ) : ℚ))

/-- Python `**`: `int ** nonnegative int` is an `int`; a negative exponent
yields a float, with `ZeroDivisionError` on base zero. A float power with a
non-integral exponent is irrational in general and not representable in this
exact model; it is mapped to an error (no verified claim exercises it). -/
def pyPow : PyVal → PyVal → Except String PyVal
  | .int a, .int b =>
      if 0 ≤ b then .ok (.int (a ^ b.toNat))
      else if a = 0 then .error "0.0 cannot be raised to a negative power"
      else .ok (.float ((a : ℚ) ^ b))
  | a, b =>
      if (toQ b).den = 1 then
        if toQ a = 0 ∧ (toQ b).num < 0 then
          .error "0.0 cannot be raised to a negative power"
        else .ok (.float (toQ a ^ (toQ b).num))
      else .error "non-integral float exponent is not representable exactly"

/-- Evaluation of a parsed expression, with Python numeric semantics on the
exact value model. Errors are the `ZeroDivisionError` messages Python would
raise. -/
def evalAST : PExpr → Except String PyVal
  | .lit v => .ok v
  | .pos e => evalAST e
  | .neg e => (evalAST e).map pyNeg
  | .add a b => do pure (pyAdd (← evalAST a) (← evalAST b))
  | .sub a b => do pure (pySub (← evalAST a) (← evalAST b))
  | .mul a b => do pure (pyMul (← evalAST a) (← evalAST b))
  | .div a b => do pyDiv (← evalAST a) (← evalAST b)
  | .fdiv a b => do pyFloorDiv (← evalAST a) (← evalAST b)
  | .pow a b => do pyPow (← evalAST a) (← evalAST b)

/-- The model of `eval(expression)` on the admitted character set: tokenize,
parse the whole input (Python compiles before it runs, so a syntax error is
reported even when a subterm would raise), then evaluate. -/
def pyEval (s : String) : Except String PyVal := do
  let toks ← lexRun (s.length + 1) s.data
  let (e, rest) ← parseExpr (8 * toks.length + 8) toks
  match rest with
  | [] => evalAST e
  | _ => .error "invalid syntax"

/-- The allowlist of `calculate`: `set("0123456789+-*/.() ")`. -/
def allowed_chars : List Char := "0123456789+-*/.() ".data

/-- The rejection message of `calculate` for a disallowed character. -/
def charErrMsg : String :=
  "Error: Only basic math operations allowed (+, -, *, /, parentheses)"

/-- Rendering of a number in the `f"🔢 {expression} = {result}"` f-string.
A Python int prints as its decimal digits. A float is modelled as an exact
rational: an integral value prints with a trailing `.0` as in Python, and a
non-integral value prints as an exact fraction — Python instead prints the
shortest decimal that round-trips the IEEE-754 double, which an exact model
cannot reproduce; no verified claim depends on the rendering of a
non-integral float. -/
def renderVal : PyVal → String
  | .int n => toString n
  | .float q => if q.den = 1 then toString q.num ++ ".0"
                else toString q.num ++ "/" ++ toString q.den

/-- The success output of `calculate`. -/
def resultMsg (expression : String) (v : PyVal) : String :=
  "🔢 " ++ expression ++ " = " ++ renderVal v

/-- `calculate(expression)` from `src/research-agent.py` lines 77–93: if any
character is outside the allowlist, return the rejection message (the `eval`
is never reached, so a rejected input such as `DROP TABLE` never executes);
otherwise `eval` the expression, rendering a result on success and
converting any raised exception to an `Error calculating:` string. -/
def calculate (expression : String) : String :=
  if expression.data.all (fun c => decide (c ∈ allowed_chars)) then
    match pyEval expression with
    | .ok v => resultMsg expression v
    | .error e => "Error calculating: " ++ e
  else charErrMsg

/-- Run a sequence of `save_note` calls (each a topic, content, timestamp
triple) against a store, collecting the final store and the returned
confirmation messages in call order. -/
def runSaves (store : List Note) :
    List (String × String × String) → List Note × List String
  | [] => (store, [])
  | (t, c, ts) :: rest =>
      let r := save_note store t c ts
      let next := runSaves r.1 rest
      (next.1, r.2 :: next.2)

/-- A call to one of the tools registered in `create_agent`
(`src/research-agent.py` lines 127–137): `save_note`, `get_notes` or
`calculate`. The `DuckDuckGoSearchTool` performs network I/O and is outside
the embedding. The timestamp argument of `saveNote` carries the value
`datetime.now()` would produce at execution time. -/
inductive ToolCall where
  | saveNote (topic content timestamp : String)
  | getNotes (topic : String)
  | calcTool (expression : String)
deriving DecidableEq, Repr

/-- Execute one tool call against the note store, returning the new store
and the textual observation. Only `save_note` touches the store. -/
def execTool (store : List Note) : ToolCall → List Note × String
  | .saveNote t c ts => save_note store t c ts
  | .getNotes t => (store, get_notes store t)
  | .calcTool e => (store, calculate e)

/-- A model collaborator response, per spec §9: a tool call, a final
answer, or a malformed response. -/
inductive Decision where
  | toolCall (c : ToolCall)
  | finalAnswer (answer : String)
  | malformed
deriving DecidableEq, Repr

/-- Terminal state of an agent run: `DONE` with an answer, or
`BUDGET_EXHAUSTED`. -/
inductive Outcome where
  | done (answer : String)
  | budgetExhausted
deriving DecidableEq, Repr

/-- The corrective note appended to the conversation on a malformed model
response (spec §4.4 failure semantics). -/
def malformedNote : String :=
  "Malformed response: reply with a tool call or a final answer."

/-- Modelled from the spec: the AgentLoop of §4.4 is implemented by the
external smolagents `CodeAgent`, which `create_agent` merely configures with
`max_steps=10`; the loop body itself is not in the repository. Following the
spec transition rules: with zero remaining budget the run stops in
`BUDGET_EXHAUSTED`; a final answer stops in `DONE`; a tool call is executed,
its observation appended, the budget decremented; a malformed response
appends a corrective note and retries within the budget. The second
component counts the model-call/tool-execution cycles performed. -/
def agentLoop (model : List String → Decision) :
    Nat → List String → List Note → Outcome × Nat
  | 0, _, _ => (.budgetExhausted, 0)
  | budget + 1, conv, store =>
    match model conv with
    | .finalAnswer a => (.done a, 1)
    | .toolCall c =>
        let r := execTool store c
        let next := agentLoop model budget (conv ++ [r.2]) r.1
        (next.1, next.2 + 1)
    | .malformed =>
        let next := agentLoop model budget (conv ++ [malformedNote]) store
        (next.1, next.2 + 1)

/-- The `max_steps` value passed to the smolagents `CodeAgent` in
`create_agent` (both `src/research-agent.py` and `src/research_agent.py`). -/
def max_steps : Nat := 10

theorem isPre_iff (p : List Char) : ∀ l, isPre p l = true ↔ ∃ post, l = p ++ post := by
  induction p with
  | nil => intro l; simp [isPre]
  | cons a as ih =>
    intro l
    cases l with
    | nil => simp [isPre]
    | cons b bs =>
      rw [isPre]
      simp only [Bool.and_eq_true, decide_eq_true_eq, ih, List.cons_append,
        List.cons.injEq]
      constructor
      · rintro ⟨rfl, post, rfl⟩
        exact ⟨post, rfl, rfl⟩
      · rintro ⟨post, rfl, rfl⟩
        exact ⟨rfl, post, rfl⟩

theorem containsSub_iff (needle : List Char) :
    ∀ hay, containsSub needle hay = true ↔ ∃ pre post, hay = pre ++ needle ++ post := by
  intro hay
  induction hay with
  | nil =>
    rw [containsSub]
    simp only [List.isEmpty_iff]
    constructor
    · rintro rfl; exact ⟨[], [], rfl⟩
    · rintro ⟨pre, post, h⟩
      rcases List.append_eq_nil.mp h.symm with ⟨h1, h2⟩
      exact (List.append_eq_nil.mp h1).2
  | cons c rest ih =>
    rw [containsSub]
    simp only [Bool.or_eq_true, isPre_iff, ih]
    constructor
    · rintro (⟨post, h⟩ | ⟨pre, post, rfl⟩)
      · exact ⟨[], post, by simpa using h⟩
      · exact ⟨c :: pre, post, rfl⟩
    · rintro ⟨pre, post, h⟩
      cases pre with
      | nil => exact Or.inl ⟨post, by simpa using h⟩
      | cons x xs =>
        rw [List.cons_append, List.cons_append, List.cons.injEq] at h
        exact Or.inr ⟨xs, post, by rw [h.2]⟩

/-- C2: `get_notes` with an empty filter displays all notes in creation
order; with a nonempty filter it displays exactly the notes whose lowered
topic contains the lowered filter as a contiguous substring, in an order
that is a sublist of (hence preserves) creation order; and when nothing is
displayed it returns one of the two no-notes indicator strings rather than
failing. -/
theorem getNotes_filter_correct (store : List Note) (t : String) :
    displayedNotes store "" = store
    ∧ (t ≠ "" →
        (∀ n, n ∈ displayedNotes store t ↔
            n ∈ store ∧ ∃ pre post, lowerChars n.topic = pre ++ lowerChars t ++ post)
        ∧ List.Sublist (displayedNotes store t) store
        ∧ (displayedNotes store t = [] →
            get_notes store t = noNotesSavedMsg ∨
              get_notes store t = noNotesFoundMsg t)) := by
  constructor
  · simp [displayedNotes]
  · intro ht
    have hd : displayedNotes store t = filterNotes store t := by
      simp [displayedNotes, ht]
    refine ⟨?_, ?_, ?_⟩
    · intro n
      rw [hd]
      unfold filterNotes
      rw [List.mem_filter]
      unfold matchesTopic
      rw [containsSub_iff]
    · rw [hd]
      exact List.filter_sublist store
    · intro hempty
      rw [hd] at hempty
      unfold get_notes
      cases hs : store.isEmpty
      · simp only [Bool.false_eq_true, if_false, if_pos ht]
        rw [hempty]
        simp
      · simp

/-- Witness for C2 at a concrete store and filter: the note with topic
`Pricing` is displayed for the case-insensitively matching filter `PRIC`. -/
theorem getNotes_filter_correct_witness :
    ({ id := 1, topic := "Pricing", content := "X costs $10", timestamp := "T" } : Note)
      ∈ displayedNotes
          [{ id := 1, topic := "Pricing", content := "X costs $10", timestamp := "T" }]
          "PRIC" := by
  have h := (getNotes_filter_correct
      [{ id := 1, topic := "Pricing", content := "X costs $10", timestamp := "T" }]
      "PRIC").2 (by decide)
  exact (h.1 _).mpr ⟨by simp, [], "ing".data, by decide⟩

theorem runSaves_spec (calls : List (String × String × String)) :
    ∀ store : List Note,
      (runSaves store calls).1.map Note.id
          = store.map Note.id ++ List.range' (store.length + 1) calls.length
      ∧ (runSaves store calls).2
          = ((List.range' (store.length + 1) calls.length).zip
              (calls.map (fun c => c.1))).map (fun p => saveMsg p.1 p.2) := by
  induction calls with
  | nil => intro store; simp [runSaves]
  | cons call rest ih =>
    intro store
    obtain ⟨t, c, ts⟩ := call
    have hlen :
        ((save_note store t c ts).1).length = store.length + 1 := by
      simp [save_note]
    have hmap :
        ((save_note store t c ts).1).map Note.id
          = store.map Note.id ++ [store.length + 1] := by
      simp [save_note]
    have ihs := ih (save_note store t c ts).1
    rw [hlen, hmap] at ihs
    constructor
    · show ((runSaves (save_note store t c ts).1 rest).1).map Note.id = _
      rw [ihs.1]
      simp [List.range'_succ, List.append_assoc]
    · show (save_note store t c ts).2 :: (runSaves (save_note store t c ts).1 rest).2 = _
      rw [ihs.2]
      simp [List.range'_succ, save_note, saveMsg]

/-- C1: running any sequence of `save_note` calls from the empty store
yields notes whose ids are exactly `1, 2, …, n` in call order, confirmation
messages referencing `1, 2, …, n` in call order, and an empty-filter
retrieval that displays all notes in that same creation order. -/
theorem save_ids_sequential (calls : List (String × String × String)) :
    (runSaves [] calls).1.map Note.id = List.range' 1 calls.length
    ∧ (runSaves [] calls).2
        = ((List.range' 1 calls.length).zip (calls.map (fun c => c.1))).map
            (fun p => saveMsg p.1 p.2)
    ∧ displayedNotes (runSaves [] calls).1 "" = (runSaves [] calls).1
    ∧ (calls ≠ [] →
        get_notes (runSaves [] calls).1 ""
          = renderNotes (runSaves [] calls).1) := by
  have h := runSaves_spec calls []
  simp only [List.map_nil, List.length_nil, List.nil_append, Nat.zero_add] at h
  refine ⟨h.1, h.2, by simp [displayedNotes], ?_⟩
  intro hne
  have hlen : (runSaves [] calls).1.length = calls.length := by
    have := congrArg List.length h.1
    simpa using this
  have hnonempty : (runSaves [] calls).1 ≠ [] := by
    intro habs
    apply hne
    rw [habs] at hlen
    exact List.length_eq_zero.mp hlen.symm
  unfold get_notes
  rw [if_neg (by simpa [List.isEmpty_iff] using hnonempty)]
  simp

/-- Witness for C1 at a concrete two-call sequence. -/
theorem save_ids_sequential_witness :
    (runSaves [] [("a", "c1", "T1"), ("B", "c2", "T2")]).1.map Note.id = [1, 2]
    ∧ get_notes (runSaves [] [("a", "c1", "T1"), ("B", "c2", "T2")]).1 ""
        = renderNotes (runSaves [] [("a", "c1", "T1"), ("B", "c2", "T2")]).1 := by
  refine ⟨?_, (save_ids_sequential [("a", "c1", "T1"), ("B", "c2", "T2")]).2.2.2 (by decide)⟩
  exact (save_ids_sequential [("a", "c1", "T1"), ("B", "c2", "T2")]).1

/-- C6: `save_note` always succeeds: for every topic, content and timestamp
(empty strings included) and every store, it appends exactly one note
carrying the next sequential id and the given timestamp, and returns the
confirmation message that references the assigned id. -/
theorem save_note_spec (store : List Note) (topic content timestamp : String) :
    (save_note store topic content timestamp).1
        = store ++ [{ id := store.length + 1, topic := topic,
                      content := content, timestamp := timestamp }]
    ∧ (save_note store topic content timestamp).2
        = "✅ Note #" ++ toString (store.length + 1)
            ++ " saved under topic \x27" ++ topic ++ "\x27" := by
  exact ⟨rfl, rfl⟩

/-- C8: `get_notes` is read-only — executing it as a tool leaves the note
store exactly as it was, for every store and every filter. -/
theorem get_notes_readonly (store : List Note) (t : String) :
    (execTool store (ToolCall.getNotes t)).1 = store := rfl

/-- C10: on an empty store `get_notes` returns the global
`No notes saved yet.` indicator for every filter, nonempty filters
included; the topic-specific `No notes found` message is returned only when
the store is nonempty, the filter is nonempty and no topic matches. -/
theorem empty_store_precedence (t : String) (store : List Note) :
    get_notes [] t = noNotesSavedMsg
    ∧ (store ≠ [] → t ≠ "" → filterNotes store t = [] →
        get_notes store t = noNotesFoundMsg t) := by
  constructor
  · rfl
  · intro hs ht hf
    unfold get_notes
    rw [if_neg (by simpa [List.isEmpty_iff] using hs), if_pos ht]
    simp [hf]

/-- Witness for C10: the empty store answers `No notes saved yet.` even for
a nonempty filter, and a nonempty store with no match answers the
topic-specific indicator. -/
theorem empty_store_precedence_witness :
    get_notes [] "zzz" = noNotesSavedMsg
    ∧ get_notes [{ id := 1, topic := "Pricing", content := "c", timestamp := "T" }] "zzz"
        = noNotesFoundMsg "zzz" := by
  refine ⟨(empty_store_precedence "zzz" []).1, ?_⟩
  exact (empty_store_precedence "zzz"
      [{ id := 1, topic := "Pricing", content := "c", timestamp := "T" }]).2
    (by decide) (by decide) (by decide)

theorem calculate_of_disallowed (s : String)
    (h : ∃ c ∈ s.data, c ∉ allowed_chars) : calculate s = charErrMsg := by
  obtain ⟨c, hc, hnot⟩ := h
  unfold calculate
  rw [if_neg]
  intro hall
  exact hnot (by simpa using (List.all_eq_true.mp hall c hc))

theorem calculate_of_admitted (s : String)
    (h : ∀ c ∈ s.data, c ∈ allowed_chars) :
    calculate s = match pyEval s with
      | .ok v => resultMsg s v
      | .error e => "Error calculating: " ++ e := by
  unfold calculate
  rw [if_pos]
  exact List.all_eq_true.mpr (fun c hc => by simpa using h c hc)

/-- C3: the character allowlist is the sole admission check of `calculate`:
any input containing a character outside `0-9 + - * / . ( ) space` is
rejected with the fixed error message (so a rejected input such as
`DROP TABLE` is never evaluated), and any input passing the character check
proceeds directly to evaluation with no further well-formedness
validation. -/
theorem calculate_char_gate (s : String) :
    ((∃ c ∈ s.data, c ∉ allowed_chars) → calculate s = charErrMsg)
    ∧ ((∀ c ∈ s.data, c ∈ allowed_chars) →
        calculate s = match pyEval s with
          | .ok v => resultMsg s v
          | .error e => "Error calculating: " ++ e) :=
  ⟨calculate_of_disallowed s, calculate_of_admitted s⟩

/-- Witness for C3: `DROP TABLE` contains the disallowed character `D` and
is rejected with the fixed message. -/
theorem calculate_char_gate_witness :
    calculate "DROP TABLE" = charErrMsg :=
  (calculate_char_gate "DROP TABLE").1 ⟨'D', by decide, by decide⟩

/-- C4: on an admitted expression whose evaluation fails (division by zero,
malformed syntax, …), `calculate` returns the descriptive
`Error calculating:` string carrying the failure message, instead of
propagating the exception. -/
theorem calculate_eval_error (s e : String)
    (hadm : ∀ c ∈ s.data, c ∈ allowed_chars)
    (herr : pyEval s = .error e) :
    calculate s = "Error calculating: " ++ e := by
  rw [calculate_of_admitted s hadm, herr]

/-- Witness for C4: `1/0` is admitted, raises `ZeroDivisionError`, and
`calculate` converts it to the error string. -/
theorem calculate_eval_error_witness :
    calculate "1/0" = "Error calculating: division by zero" :=
  calculate_eval_error "1/0" "division by zero" (by decide) rfl

/-- C9: `calculate` is total at its interface — for every input string it
returns a string: either the allowlist rejection, a rendered result, or an
`Error calculating:` message; evaluation failures are always caught. -/
theorem calculate_total (s : String) :
    calculate s = charErrMsg
    ∨ (∃ v, pyEval s = .ok v ∧ calculate s = resultMsg s v)
    ∨ (∃ e, pyEval s = .error e ∧ calculate s = "Error calculating: " ++ e) := by
  unfold calculate
  by_cases h : s.data.all (fun c => decide (c ∈ allowed_chars)) = true
  · rw [if_pos h]
    cases hp : pyEval s with
    | ok v => exact Or.inr (Or.inl ⟨v, rfl, rfl⟩)
    | error e => exact Or.inr (Or.inr ⟨e, rfl, rfl⟩)
  · rw [if_neg h]
    exact Or.inl rfl

/-- C7: `calculate "42 + 58"` renders `100`; the evaluator computes the
exact quotient `50 / 7` as a float (the exact rational of the model), and
honours operator precedence and parenthesization. -/
theorem calculate_examples :
    calculate "42 + 58" = "🔢 42 + 58 = 100"
    ∧ pyEval "50 / 7" = .ok (PyVal.float ((50 : ℚ) / 7))
    ∧ pyEval "2 + 3 * 4" = .ok (PyVal.int 14)
    ∧ pyEval "(2 + 3) * 4" = .ok (PyVal.int 20) :=
  ⟨by decide, rfl, rfl, rfl⟩

theorem agentLoop_steps (model : List String → Decision) (n : Nat) :
    ∀ conv store, (agentLoop model n conv store).2 ≤ n
      ∧ ((∀ c a, model c ≠ Decision.finalAnswer a) →
          (agentLoop model n conv store).1 = Outcome.budgetExhausted) := by
  induction n with
  | zero => intro conv store; exact ⟨Nat.le_refl 0, fun _ => rfl⟩
  | succ k ih =>
    intro conv store
    constructor
    · rw [agentLoop]
      cases model conv with
      | finalAnswer a => exact Nat.succ_le_succ (Nat.zero_le k)
      | toolCall c =>
        simpa using Nat.succ_le_succ (ih (conv ++ [(execTool store c).2]) (execTool store c).1).1
      | malformed =>
        simpa using Nat.succ_le_succ (ih (conv ++ [malformedNote]) store).1
    · intro h
      rw [agentLoop]
      cases hm : model conv with
      | finalAnswer a => exact absurd hm (h conv a)
      | toolCall c =>
        simpa using (ih (conv ++ [(execTool store c).2]) (execTool store c).1).2 h
      | malformed =>
        simpa using (ih (conv ++ [malformedNote]) store).2 h

/-- C5: for every step budget `N`, every model collaborator (arbitrary, so
the ceiling is enforced by the loop and not by the model), every starting
conversation and every note store, the agent loop performs at most `N`
model-call/tool-execution cycles; and if the model never emits a final
answer the run terminates in `BUDGET_EXHAUSTED`. -/
theorem agentLoop_budget_enforced (model : List String → Decision) (n : Nat)
    (conv : List String) (store : List Note) :
    (agentLoop model n conv store).2 ≤ n
    ∧ ((∀ c a, model c ≠ Decision.finalAnswer a) →
        (agentLoop model n conv store).1 = Outcome.budgetExhausted) :=
  ⟨(agentLoop_steps model n conv store).1,
   (agentLoop_steps model n conv store).2⟩

/-- Witness for C5: a collaborator that always answers malformed, run with
the repository's configured budget of `max_steps = 10` cycles, stays within
the budget and ends in `BUDGET_EXHAUSTED`. -/
theorem agentLoop_budget_enforced_witness :
    (agentLoop (fun _ => Decision.malformed) max_steps [] []).2 ≤ max_steps
    ∧ (agentLoop (fun _ => Decision.malformed) max_steps [] []).1
        = Outcome.budgetExhausted :=
  ⟨(agentLoop_budget_enforced (fun _ => Decision.malformed) max_steps [] []).1,
   (agentLoop_budget_enforced (fun _ => Decision.malformed) max_steps [] []).2
     (fun _ _ h => Decision.noConfusion h)⟩

end ResearchAgent
